import Mathlib

/-!
Verification of the rclone `ncdu` navigation/selection/deletion controller
(`cmd/ncdu/ncdu.go`).  The Go state struct `UI` and the operations on it
(`move`, `toggleSort`, `toggleSelectForCursor`, `sortCurrentDir`,
`setCurrentDir`, `removeEntry`, `deleteSingle`, `deleteSelected`,
`handleBoxOption`, `moveBox`, `popupBox`, `togglePopupBox`, the key-event
dispatch of `Show`) are embedded as pure Lean functions.  Go slices become
`List`, Go `int` becomes `Int` (indices converted with `Int.toNat` where the
Go code indexes a slice), the Go maps `dirPosMap` and `selectedEntries`
become a total function with the Go zero-value default and an association
list respectively, and the box-menu handler closures become an explicit
inductive (`BoxHandler`) with an interpreter (`runHandler`) that models the
backend delete/purge calls as succeeding (claims about failure paths are not
in scope).  The external `scan.Dir` tree is visible to the controller only
through the current directory's entry list and per-entry attributes, so a
directory is embedded as its entry list (`DirData`).
-/

namespace Ncdu

/-- Per-entry aggregate attributes, as returned by `scan.Dir.AttrI`. -/
structure Attrs where
  size : Int
  count : Int
  countUnknownSize : Int
  isDir : Bool
  readable : Bool
  entriesHaveErrors : Bool
deriving Repr, DecidableEq

/-- Modelled from the spec: the scan package's `AverageSize` (the `scan`
source is not part of this repository slice); "average size is `size / count`
when `count > 0`, else `0`" — the `count > 0` guard is at the call site,
exactly as in `ncduSort.Less`.  The Go `float64` division is modelled as
exact rational division. -/
def Attrs.AverageSize (a : Attrs) : Rat :=
  (a.size : Rat) / (a.count : Rat)

/-- One directory entry: its identity key (`Remote()`, which is also what
`String()` returns and what keys `selectedEntries`), its attributes, and
whether it is an `fs.Object` (file) rather than a directory. -/
structure Entry where
  remote : String
  attrs : Attrs
  isFile : Bool
deriving Repr, DecidableEq

/-- Go zero value used where the embedding needs a default for a slice read
(the Go code would panic on an out-of-range index; in-bounds uses never see
this value). -/
def dfltEntry : Entry :=
  ⟨"", ⟨0, 0, 0, false, false, false⟩, true⟩

/-- `dirPos`: where we have got to in the directory listing (cursor `entry`
index and scroll `offset`).  Both are Go `int`s, embedded as `Int` — the
cursor can in fact go negative (see the `move` theorems). -/
structure dirPos where
  entry : Int
  offset : Int
deriving Repr, DecidableEq

/-- The four sort flags of `UI` (`sortByName`, `sortBySize`, `sortByCount`,
`sortByAverageSize`): `+1` for normal, `0` for off, `-1` for reverse. -/
structure SortFlags where
  sortByName : Int
  sortBySize : Int
  sortByCount : Int
  sortByAverageSize : Int
deriving Repr, DecidableEq

/-- The `var iAvgSize float64` / `if iattrs.Count > 0 ... AverageSize()`
prologue of `ncduSort.Less`: zero unless the entry has a positive count. -/
def avgOf (e : Entry) : Rat :=
  if e.attrs.count > 0 then e.attrs.AverageSize else 0

/-- `ncduSort.Less` applied to the underlying entry indices `a` and `b`
(the Go method receives positions `i`, `j` into `sortPerm` and compares the
entries `sortPerm[i]`, `sortPerm[j]`; sorting `sortPerm` with it is sorting
the index list by this relation).  The Go `switch` cases are tried in source
order; cases that fall through reach the final `return iname < jname`. -/
def entryLess (flags : SortFlags) (es : List Entry) (a b : Nat) : Bool :=
  let iattrs := (es.getD a dfltEntry).attrs
  let jattrs := (es.getD b dfltEntry).attrs
  let iname := (es.getD a dfltEntry).remote
  let jname := (es.getD b dfltEntry).remote
  let iAvgSize : Rat := avgOf (es.getD a dfltEntry)
  let jAvgSize : Rat := avgOf (es.getD b dfltEntry)
  if flags.sortByName < 0 then
    decide (jname < iname)
  else if flags.sortByName > 0 then
    decide (iname < jname)
  else if flags.sortBySize < 0 then
    if iattrs.size ≠ jattrs.size then decide (iattrs.size < jattrs.size)
    else decide (iname < jname)
  else if flags.sortBySize > 0 then
    if iattrs.size ≠ jattrs.size then decide (jattrs.size < iattrs.size)
    else decide (iname < jname)
  else if flags.sortByCount < 0 then
    if iattrs.count ≠ jattrs.count then decide (iattrs.count < jattrs.count)
    else decide (iname < jname)
  else if flags.sortByCount > 0 then
    if iattrs.count ≠ jattrs.count then decide (jattrs.count < iattrs.count)
    else decide (iname < jname)
  else if flags.sortByAverageSize < 0 then
    if iAvgSize ≠ jAvgSize then decide (iAvgSize < jAvgSize)
    else decide (iattrs.size < jattrs.size)
  else if flags.sortByAverageSize > 0 then
    if iAvgSize ≠ jAvgSize then decide (jAvgSize < iAvgSize)
    else decide (jattrs.size < iattrs.size)
  else
    decide (iname < jname)

/-- Insert `x` into `l` before the first element `y` with `le x y = true`
(helper for the deterministic embedding of Go's `sort.Sort`/`sort.Slice`). -/
def insertBy (le : α → α → Bool) (x : α) : List α → List α
  | [] => [x]
  | y :: ys => if le x y then x :: y :: ys else y :: insertBy le x ys

/-- Deterministic comparison sort (insertion sort) standing in for Go's
`sort.Sort` / `sort.Slice`.  Go's sort is an unspecified-but-deterministic
comparison sort; every property proved here (permutation, determinism,
sortedness of the descending position sort) holds of both. -/
def insSort (le : α → α → Bool) : List α → List α
  | [] => []
  | x :: xs => insertBy le x (insSort le xs)

/-- The loop `for i, j := range u.sortPerm { u.invSortPerm[j] = i }` from
`sortCurrentDir`: write rank `i` into slot `j` of the accumulator. -/
def writeInv : List Nat → Nat → List Nat → List Nat
  | [], _, acc => acc
  | j :: rest, i, acc => writeInv rest (i + 1) (acc.set j i)

/-- The deep embedding of the three shapes of `boxMenuHandler` closure the
source creates: the two `deleteSingle` handlers (capturing the resolved
entry, its index and the cursor position at staging time) and the
`deleteSelected` handler (which reads the live state at confirm time). -/
inductive BoxHandler where
  | delSingleFile (obj : Entry) (dirPosIdx : Nat) (cursorPos : dirPos)
  | delSingleDir (dirEntry : Entry) (dirPosIdx : Nat) (cursorPos : dirPos)
  | delSelected
deriving Repr, DecidableEq

/-- The controller state (`UI` struct).  Rendering-only fields are kept
(`showGraph`, …) but carry no behaviour.  `hasRoot` models `u.d != nil`
(whether the root directory has arrived); the current directory itself is
represented by its entry list. -/
structure UI where
  fsName : String
  hasRoot : Bool
  entries : List Entry
  path : String
  showBox : Bool
  boxText : List String
  boxMenu : List String
  boxMenuButton : Int
  boxMenuHandler : Option BoxHandler
  sortPerm : List Nat
  invSortPerm : List Nat
  dirListHeight : Int
  listing : Bool
  showGraph : Bool
  showCounts : Bool
  showDirAverageSize : Bool
  humanReadable : Bool
  visualSelectMode : Bool
  sortByName : Int
  sortBySize : Int
  sortByCount : Int
  sortByAverageSize : Int
  dirPosMap : String → dirPos
  selectedEntries : List (String × dirPos)

/-- The four sort flags of a state, as one record. -/
def UI.sortFlags (u : UI) : SortFlags :=
  ⟨u.sortByName, u.sortBySize, u.sortByCount, u.sortByAverageSize⟩

/-- `fspath.JoinRootPath` — external to this repository slice.  Modelled
from the spec: produces the fully-qualified display path of a directory;
only its determinism matters to the claims. -/
def fspathJoinRootPath (root p : String) : String :=
  if p = "" then root else root ++ "/" ++ p

/-- `sortCurrentDir`: rebuild `sortPerm` as the identity permutation of the
current entries and sort it with `ncduSort.Less`; grow `invSortPerm` if it
is too short and overwrite `invSortPerm[j] = i` for each rank `i`. -/
def UI.sortCurrentDir (u : UI) : UI :=
  let perm := insSort (fun a b => entryLess u.sortFlags u.entries a b)
      (List.range u.entries.length)
  let inv0 := if u.invSortPerm.length < perm.length
      then List.replicate perm.length 0 else u.invSortPerm
  { u with sortPerm := perm, invSortPerm := writeInv perm 0 inv0 }

/-- The data of a directory node that `setCurrentDir` reads from the scan
tree: `d.Entries()` and `d.Path()`. -/
structure DirData where
  entries : List Entry
  dirPath : String

/-- `setCurrentDir`: make `d` the displayed directory — re-derive entries
and path, clear the selection, leave visual-select mode, re-sort. -/
def UI.setCurrentDir (u : UI) (dd : DirData) : UI :=
  UI.sortCurrentDir
    { u with hasRoot := true, entries := dd.entries,
             path := fspathJoinRootPath u.fsName dd.dirPath,
             selectedEntries := [], visualSelectMode := false }

/-- `removeEntry`: `u.d.Remove(pos)` followed by `u.setCurrentDir(u.d)` —
the entry at index `pos` disappears from the tree node, and the display
state of the same directory (same path) is re-derived from it. -/
def UI.removeEntry (u : UI) (pos : Nat) : UI :=
  UI.sortCurrentDir
    { u with entries := u.entries.eraseIdx pos,
             selectedEntries := [], visualSelectMode := false }

/-- `toggleSelectForCursor`: resolve the cursor's display rank through
`sortPerm` to an entry and toggle its identity key in `selectedEntries`,
storing the current `dirPos` on insertion. -/
def UI.toggleSelectForCursor (u : UI) : UI :=
  let cursorPos := u.dirPosMap u.path
  let dirPosIdx := u.sortPerm.getD cursorPos.entry.toNat 0
  let dirEntry := u.entries.getD dirPosIdx dfltEntry
  if (u.selectedEntries.find? (fun kv => kv.1 = dirEntry.remote)).isSome then
    { u with selectedEntries :=
        u.selectedEntries.filter (fun kv => kv.1 ≠ dirEntry.remote) }
  else
    { u with selectedEntries :=
        u.selectedEntries ++ [(dirEntry.remote, cursorPos)] }

/-- The slice accesses `u.sortPerm[cursorPos.entry]` and
`u.entries[dirPos]` performed by `toggleSelectForCursor` are in bounds.
(The Go code panics when this fails; the Lean embedding totalises the reads
with `getD`, so the bound is stated separately.) -/
def UI.toggleSelectAccessOK (u : UI) : Prop :=
  0 ≤ (u.dirPosMap u.path).entry ∧
  (u.dirPosMap u.path).entry.toNat < u.sortPerm.length ∧
  u.sortPerm.getD (u.dirPosMap u.path).entry.toNat 0 < u.entries.length

instance (u : UI) : Decidable u.toggleSelectAccessOK := by
  unfold UI.toggleSelectAccessOK; infer_instance

/-- The cursor/scroll arithmetic of `move` on one `dirPos`, for a directory
with `entries` children and listing height `h` (Go `u.dirListHeight`). -/
def movePos (entries h : Int) (dp : dirPos) (d : Int) : dirPos :=
  let absD := if d < 0 then -d else d
  let e1 := dp.entry + d
  let e2 := if e1 < 0 then 0 else if e1 ≥ entries then entries - 1 else e1
  let p := e2 - dp.offset
  let o1 := if p < 0 then dp.offset - absD
    else if p ≥ h then dp.offset + absD else dp.offset
  let o2 := if entries = 0 ∨ o1 < 0 then 0
    else if o1 ≥ entries then entries - 1 else o1
  ⟨e2, o2⟩

/-- `move`: no-op before the root arrives; otherwise compute the new
`dirPos`, toggle the selection at the (still-stored, pre-move) cursor if
visual-select mode is on, and only then write the new `dirPos` back. -/
def UI.move (u : UI) (d : Int) : UI :=
  if u.hasRoot = false then u
  else
    let newPos := movePos (u.entries.length : Int) u.dirListHeight
        (u.dirPosMap u.path) d
    let u' := if u.visualSelectMode then u.toggleSelectForCursor else u
    { u' with dirPosMap := fun q => if q = u.path then newPos else u'.dirPosMap q }

/-- `popupBox`: show a box with the given text. -/
def UI.popupBox (u : UI) (text : List String) : UI :=
  { u with boxText := text, showBox := true }

/-- `togglePopupBox`: hide the box if the same text is already showing,
else show it. -/
def UI.togglePopupBox (u : UI) (text : List String) : UI :=
  if u.showBox = true ∧ u.boxText = text then { u with showBox := false }
  else u.popupBox text

/-- `displayPath` ('Y'). -/
def UI.displayPath (u : UI) : UI :=
  u.togglePopupBox ["Current Path", u.path]

/-- `copyPath` ('y'): writes to the clipboard, no controller state change. -/
def UI.copyPath (u : UI) : UI := u

/-- `moveBox`: move the highlighted box-menu option left or right, clamped
to the valid range (no wraparound); no-op without a menu. -/
def UI.moveBox (u : UI) (t : Int) : UI :=
  if u.boxMenu.length = 0 then u
  else
    let b1 := if t > 0 then u.boxMenuButton + 1 else u.boxMenuButton - 1
    let b2 := if b1 ≥ (u.boxMenu.length : Int) then (u.boxMenu.length : Int) - 1
      else if b1 < 0 then 0 else b1
    { u with boxMenuButton := b2 }

/-- Selector for the four `toggleSort` call sites (`&u.sortByName`, …). -/
inductive SortField where
  | byName
  | bySize
  | byCount
  | byAverageSize
deriving Repr, DecidableEq

/-- Read the flag a `SortField` points at. -/
def UI.getSortFlag (u : UI) : SortField → Int
  | .byName => u.sortByName
  | .bySize => u.sortBySize
  | .byCount => u.sortByCount
  | .byAverageSize => u.sortByAverageSize

/-- `toggleSort`: remember the old value of the chosen flag, zero all four
flags, set the chosen one to `+1` if it was `0` and to its negation
otherwise, then re-sort. -/
def UI.toggleSort (u : UI) (f : SortField) : UI :=
  let old := u.getSortFlag f
  let v := { u with sortByName := 0, sortBySize := 0,
                    sortByCount := 0, sortByAverageSize := 0 }
  let newVal := if old = 0 then 1 else -old
  UI.sortCurrentDir (match f with
    | .byName => { v with sortByName := newVal }
    | .bySize => { v with sortBySize := newVal }
    | .byCount => { v with sortByCount := newVal }
    | .byAverageSize => { v with sortByAverageSize := newVal })

/-- Resolution `u.sortPerm[cursorPos.entry]` used by `deleteSelected` and
`toggleSelectForCursor`: a stored display rank pushed through the current
sort permutation. -/
def resolvePos (u : UI) (cp : dirPos) : Nat :=
  u.sortPerm.getD cp.entry.toNat 0

/-- `deleteSingle`: stage a cancel/confirm popup whose handler captures the
entry, its resolved index and the cursor position at staging time. -/
def UI.deleteSingle (u : UI) : UI :=
  let cursorPos := u.dirPosMap u.path
  let dirPosIdx := resolvePos u cursorPos
  let dirEntry := u.entries.getD dirPosIdx dfltEntry
  let v := { u with boxMenu := ["cancel", "confirm"] }
  if dirEntry.isFile then
    UI.popupBox { v with boxMenuHandler := some (.delSingleFile dirEntry dirPosIdx cursorPos) }
      ["Delete this file?", fspathJoinRootPath u.fsName dirEntry.remote]
  else
    UI.popupBox { v with boxMenuHandler := some (.delSingleDir dirEntry dirPosIdx cursorPos) }
      ["Purge this directory?", "ALL files in it will be deleted",
        fspathJoinRootPath u.fsName dirEntry.remote]

/-- `deleteSelected`: stage a cancel/confirm popup whose handler works on
the live `selectedEntries` at confirm time. -/
def UI.deleteSelected (u : UI) : UI :=
  UI.popupBox
    { u with boxMenu := ["cancel", "confirm"], boxMenuHandler := some .delSelected }
    ["Delete selected items?",
      "ALL " ++ toString u.selectedEntries.length ++ " items will be deleted"]

/-- `delete` ('d'): no-op without a directory or entries; batch path when a
selection exists, single path otherwise. -/
def UI.delete (u : UI) : UI :=
  if u.hasRoot = false ∨ u.entries.length = 0 then u
  else if u.selectedEntries.length > 0 then u.deleteSelected
  else u.deleteSingle

/-- Descending `sort.Slice(positionsToDelete, func(i, j) ... > ...)`. -/
def sortPositionsDesc (ps : List Nat) : List Nat :=
  insSort (fun a b => decide (b ≤ a)) ps

/-- Run a staged `boxMenuHandler` closure with the chosen option `o`,
returning the mutated state and the result message.  Backend deletes/purges
are modelled as succeeding (the claims in scope condition on success). -/
def runHandler (h : BoxHandler) (u : UI) (o : Int) : UI × String :=
  match h with
  | .delSingleFile _obj dirPosIdx cursorPos =>
    if o ≠ 1 then (u, "Aborted!")
    else
      let u1 := u.removeEntry dirPosIdx
      let u2 := if cursorPos.entry ≥ (u1.entries.length : Int) then u1.move (-1) else u1
      (u2, "Successfully deleted file!")
  | .delSingleDir _dirEntry dirPosIdx cursorPos =>
    if o ≠ 1 then (u, "Aborted!")
    else
      let u1 := u.removeEntry dirPosIdx
      let u2 := if cursorPos.entry ≥ (u1.entries.length : Int) then u1.move (-1) else u1
      (u2, "Successfully purged folder!")
  | .delSelected =>
    if o ≠ 1 then (u, "Aborted!")
    else
      let ps := u.selectedEntries.map (fun kv => resolvePos u kv.2)
      let u1 := { u with selectedEntries := [] }
      let positionsToDelete := sortPositionsDesc ps
      let u2 := positionsToDelete.foldl (fun acc p => acc.removeEntry p) u1
      let cursorPos := u2.dirPosMap u2.path
      let u3 := if cursorPos.entry ≥ (u2.entries.length : Int) then u2.move (-1) else u2
      (u3, "Successfully deleted all items!")

/-- `handleBoxOption`: run the staged handler with the highlighted option,
reset menu/button/handler, and pop up the result text.  (`boxMenuHandler`
is `nil` only when `boxMenu` is empty, in which case the source never calls
this; the embedding returns the state unchanged there.) -/
def UI.handleBoxOption (u : UI) : UI :=
  match u.boxMenuHandler with
  | none => u
  | some h =>
    let r := runHandler h u u.boxMenuButton
    UI.popupBox
      { r.1 with boxMenuButton := 0, boxMenu := [], boxMenuHandler := none }
      ["Finished:", r.2]

/-- `enter`: no-op without a directory, with an empty listing, or when the
cursor's entry is not a directory; otherwise make the child directory
current.  The child's data comes from the external scan tree, so the
embedding receives it as `res` (`none` models `GetDir` returning no dir). -/
def UI.enterWith (u : UI) (res : Option DirData) : UI :=
  if u.hasRoot = false ∨ u.entries.length = 0 then u
  else match res with
    | none => u
    | some dd => u.setCurrentDir dd

/-- `up`: no-op without a directory or at the root; otherwise make the
parent (external data, `res`) current. -/
def UI.upWith (u : UI) (res : Option DirData) : UI :=
  if u.hasRoot = false then u
  else match res with
    | none => u
    | some dd => u.setCurrentDir dd

/-- The help text shown by '?' (clipboard-unsupported build, so without the
'y' line). -/
def helpText : List String :=
  ["rclone ncdu",
   " ↑,↓ or k,j to Move",
   " →,l to enter",
   " ←,h to return",
   " c toggle counts",
   " g toggle graph",
   " a toggle average size in directory",
   " u toggle human-readable format",
   " n,s,C,A sort by name,size,count,average size",
   " d delete file/directory",
   " v select file/directory",
   " V enter visual select mode",
   " D delete selected files/directories",
   " Y display current path",
   " ^L refresh screen (fix screen corruption)",
   " ? to toggle help on and off",
   " q/ESC/^c to quit"]

/-- The key events dispatched by the main loop of `Show`. -/
inductive Key where
  | esc
  | down
  | up
  | pgdn
  | pgup
  | left
  | right
  | enter
  | keyC
  | keyG
  | keyA
  | keyN
  | keyS
  | keyV
  | keyVisual
  | keyCountSort
  | keyAvgSort
  | keyY
  | keyUpperY
  | keyD
  | keyU
  | keyUpperD
  | keyHelp
  | ctrlL
deriving Repr, DecidableEq

/-- One key press handled by the `switch` in `Show`'s event loop.  `env`
supplies the external scan-tree data an `enter`/`up` transition would read;
quitting (Esc with no box shown) ends the loop, which the embedding models
as leaving the state unchanged. -/
def UI.applyKey (u : UI) (k : Key) (env : Option DirData) : UI :=
  match k with
  | .esc => if u.showBox then { u with showBox := false } else u
  | .down => u.move 1
  | .up => u.move (-1)
  | .pgdn => u.move u.dirListHeight
  | .pgup => u.move (-u.dirListHeight)
  | .left => if u.showBox then u.moveBox (-1) else u.upWith env
  | .enter => if u.boxMenu.length > 0 then u.handleBoxOption else u.enterWith env
  | .right => if u.showBox then u.moveBox 1 else u.enterWith env
  | .keyC => { u with showCounts := !u.showCounts }
  | .keyG => { u with showGraph := !u.showGraph }
  | .keyA => { u with showDirAverageSize := !u.showDirAverageSize }
  | .keyN => u.toggleSort .byName
  | .keyS => u.toggleSort .bySize
  | .keyV => u.toggleSelectForCursor
  | .keyVisual => { u with visualSelectMode := !u.visualSelectMode }
  | .keyCountSort => u.toggleSort .byCount
  | .keyAvgSort => u.toggleSort .byAverageSize
  | .keyY => u.copyPath
  | .keyUpperY => u.displayPath
  | .keyD => u.delete
  | .keyU => { u with humanReadable := !u.humanReadable }
  | .keyUpperD => u.deleteSelected
  | .keyHelp => u.togglePopupBox helpText
  | .ctrlL => u

/-- `NewUI` followed by `Show` setting `u.listing = true` before the loop:
the state the event loop starts from. -/
def startUI (fsName : String) : UI :=
  { fsName := fsName
    hasRoot := false
    entries := []
    path := "Waiting for root..."
    showBox := false
    boxText := []
    boxMenu := []
    boxMenuButton := 0
    boxMenuHandler := none
    sortPerm := []
    invSortPerm := []
    dirListHeight := 20
    listing := true
    showGraph := true
    showCounts := false
    showDirAverageSize := false
    humanReadable := true
    visualSelectMode := false
    sortByName := 0
    sortBySize := 1
    sortByCount := 0
    sortByAverageSize := 0
    dirPosMap := fun _ => ⟨0, 0⟩
    selectedEntries := [] }

/-- One iteration of `Show`'s `select`: a key press, the root arriving, the
scan finishing, an update signal (re-sort), or a terminal resize observed by
`Draw` (`u.dirListHeight = h - 3`).  External tree data appearing in a
transition is universally quantified, which over-approximates the reachable
states. -/
inductive Step : UI → UI → Prop
  | key (u : UI) (k : Key) (env : Option DirData) : Step u (u.applyKey k env)
  | rootReady (u : UI) (dd : DirData) : Step u (u.setCurrentDir dd)
  | scanDone (u : UI) : Step u { u with listing := false }
  | updated (u : UI) : Step u u.sortCurrentDir
  | resize (u : UI) (h : Int) : Step u { u with dirListHeight := h - 3 }

/-- States reachable by the event loop from `startUI fsName`. -/
inductive Reachable (fsName : String) : UI → Prop
  | init : Reachable fsName (startUI fsName)
  | step {u v : UI} : Reachable fsName u → Step u v → Reachable fsName v

/-- The viewport invariant stated by the spec for one directory:
`0 <= cursorIndex < childCount`, `0 <= scrollOffset <= cursorIndex`,
`cursorIndex - scrollOffset` within `[0, visibleRows)`. -/
def viewInv (n h : Int) (dp : dirPos) : Prop :=
  0 ≤ dp.entry ∧ dp.entry < n ∧ 0 ≤ dp.offset ∧ dp.offset ≤ dp.entry ∧
    dp.entry - dp.offset < h

/-- Exactly one of the four sort flags is nonzero. -/
def SortFlags.exactlyOne (f : SortFlags) : Prop :=
  (f.sortByName ≠ 0 ∧ f.sortBySize = 0 ∧ f.sortByCount = 0 ∧ f.sortByAverageSize = 0) ∨
  (f.sortByName = 0 ∧ f.sortBySize ≠ 0 ∧ f.sortByCount = 0 ∧ f.sortByAverageSize = 0) ∨
  (f.sortByName = 0 ∧ f.sortBySize = 0 ∧ f.sortByCount ≠ 0 ∧ f.sortByAverageSize = 0) ∨
  (f.sortByName = 0 ∧ f.sortBySize = 0 ∧ f.sortByCount = 0 ∧ f.sortByAverageSize ≠ 0)

/-- Exactly one sort key of the state is active. -/
def exactlyOneActive (u : UI) : Prop := u.sortFlags.exactlyOne

/-- The sublist of `es` whose (0-based, counted from `i`) positions are not
in `ps`, keeping the original relative order. -/
def keepFrom (ps : List Nat) : Nat → List α → List α
  | _, [] => []
  | i, e :: es =>
    if i ∈ ps then keepFrom ps (i + 1) es else e :: keepFrom ps (i + 1) es

/-- A file entry with the given name and size (concrete test data). -/
def fileEntry (name : String) (size : Int) : Entry :=
  ⟨name, ⟨size, 1, 0, false, true, false⟩, true⟩

/-- A state whose current directory has become empty. -/
def uEmptyDir : UI :=
  { startUI "r" with hasRoot := true, path := "p" }

/-- Two files `a` (size 2) and `b` (size 1) displayed with the initial
size-descending sort (permutation `[0, 1]`), visual select mode on. -/
def uTwoFiles : UI :=
  { (startUI "r").setCurrentDir ⟨[fileEntry "a" 2, fileEntry "b" 1], "p"⟩ with
      visualSelectMode := true }

/-- A single-file directory freshly displayed. -/
def uOneFile : UI :=
  (startUI "r").setCurrentDir ⟨[fileEntry "a" 1], "p"⟩

/-- `uOneFile` after pressing 'd' (stage single delete). -/
def uC2staged : UI := uOneFile.applyKey .keyD none

/-- … after also pressing right (highlight "confirm"). -/
def uC2right : UI := uC2staged.applyKey .right none

/-- … after also pressing Esc (dismiss the popup). -/
def uC2dismissed : UI := uC2right.applyKey .esc none

/-- … after then pressing Enter (a confirm input after the dismissal). -/
def uC2confirm : UI := uC2dismissed.applyKey .enter none

/-- … restaging a delete popup after the dismissal instead. -/
def uC2restaged : UI := uC2dismissed.applyKey .keyD none

/-- Two files `a` (size 1) and `b` (size 2) freshly displayed with the
initial size-descending sort, so the display order is `b, a`. -/
def uC3start : UI :=
  (startUI "r").setCurrentDir ⟨[fileEntry "a" 1, fileEntry "b" 2], "p"⟩

/-- … after pressing 'v' with the cursor on display rank 0 (selects `b`). -/
def uC3selected : UI := uC3start.applyKey .keyV none

/-- … after pressing 's' (sort toggles to size-ascending: display `a, b`). -/
def uC3resorted : UI := uC3selected.applyKey .keyS none

/-- … after pressing 'd', right, Enter (confirm the batch delete). -/
def uC3confirmed : UI :=
  ((uC3resorted.applyKey .keyD none).applyKey .right none).applyKey .enter none

/-- The spec's batch-delete example: a 6-child directory `a`–`f` with the
identity display permutation, children at display ranks 2, 5 and 1 (`c`,
`f`, `b`) selected, and the batch-delete confirmation staged with the
"confirm" option highlighted. -/
def uSixFiles : UI :=
  { startUI "r" with
      hasRoot := true, path := "p"
      entries := [fileEntry "a" 6, fileEntry "b" 5, fileEntry "c" 4,
        fileEntry "d" 3, fileEntry "e" 2, fileEntry "f" 1]
      sortPerm := [0, 1, 2, 3, 4, 5]
      invSortPerm := [0, 1, 2, 3, 4, 5]
      selectedEntries := [("c", ⟨2, 0⟩), ("f", ⟨5, 0⟩), ("b", ⟨1, 0⟩)]
      boxMenu := ["cancel", "confirm"]
      boxMenuButton := 1
      boxMenuHandler := some .delSelected }

/-- A 1-child directory with its single-file delete staged and "confirm"
highlighted (the spec's single-delete scenario). -/
def uOneStagedDelete : UI :=
  { startUI "r" with
      hasRoot := true, path := "p"
      entries := [fileEntry "a" 1]
      sortPerm := [0]
      invSortPerm := [0]
      boxMenu := ["cancel", "confirm"]
      boxMenuButton := 1
      boxMenuHandler := some (.delSingleFile (fileEntry "a" 1) 0 ⟨0, 0⟩) }

/-- An empty, readable directory entry (size 0, count 0) — concrete test
data for exact comparator ties. -/
def emptyDirEntry (name : String) : Entry :=
  ⟨name, ⟨0, 0, 0, true, true, false⟩, false⟩

instance (n h : Int) (dp : dirPos) : Decidable (viewInv n h dp) := by
  unfold viewInv
  infer_instance

/-! General lemmas about the embedded operations. -/

theorem movePos_viewInv (n h : Int) (dp : dirPos) (d : Int)
    (hn : 1 ≤ n) (hh : 1 ≤ h) (hinv : viewInv n h dp) :
    viewInv n h (movePos n h dp d) := by
  obtain ⟨h1, h2, h3, h4, h5⟩ := hinv
  simp only [movePos, viewInv]
  split_ifs <;> constructor <;> omega

theorem insertBy_perm (le : α → α → Bool) (x : α) (l : List α) :
    (insertBy le x l).Perm (x :: l) := by
  induction l with
  | nil => exact List.Perm.refl _
  | cons y ys ih =>
    simp only [insertBy]
    split
    · exact List.Perm.refl _
    · exact (ih.cons y).trans (List.Perm.swap x y ys)

theorem insSort_perm (le : α → α → Bool) (l : List α) : (insSort le l).Perm l := by
  induction l with
  | nil => exact List.Perm.refl _
  | cons x xs ih => exact (insertBy_perm le x _).trans (ih.cons x)

theorem writeInv_length (l : List Nat) (i : Nat) (acc : List Nat) :
    (writeInv l i acc).length = acc.length := by
  induction l generalizing i acc with
  | nil => rfl
  | cons j rest ih => simp [writeInv, ih, List.length_set]

theorem writeInv_not_mem (l : List Nat) (j : Nat) (hj : j ∉ l) (i : Nat)
    (acc : List Nat) : (writeInv l i acc)[j]? = acc[j]? := by
  induction l generalizing i acc with
  | nil => rfl
  | cons a rest ih =>
    have ha : a ≠ j := fun h => hj (h ▸ List.mem_cons_self a rest)
    have hr : j ∉ rest := fun h => hj (List.mem_cons_of_mem a h)
    simp only [writeInv]
    rw [ih hr, List.getElem?_set_ne ha]

theorem writeInv_get (l : List Nat) (acc : List Nat) (i0 : Nat)
    (hnd : l.Nodup) (hb : ∀ j ∈ l, j < acc.length) :
    ∀ k, (hk : k < l.length) → (writeInv l i0 acc)[l[k]]? = some (i0 + k) := by
  induction l generalizing i0 acc with
  | nil => intro k hk; exact absurd hk (by simp)
  | cons j rest ih =>
    intro k hk
    cases k with
    | zero =>
      have hj : j ∉ rest := (List.nodup_cons.mp hnd).1
      simp only [writeInv, List.getElem_cons_zero]
      rw [writeInv_not_mem rest j hj,
        List.getElem?_set_eq_of_lt _ (hb j (List.mem_cons_self j rest))]
      simp
    | succ k' =>
      simp only [writeInv, List.getElem_cons_succ]
      have hstep := ih (acc.set j i0) (i0 + 1) (List.nodup_cons.mp hnd).2
        (fun q hq => (List.length_set ..).symm ▸ hb q (List.mem_cons_of_mem j hq))
        k' (by simpa using hk)
      rw [hstep]
      congr 1
      omega

theorem sortCurrentDir_props (u : UI) :
    (u.sortCurrentDir).sortPerm.length = u.entries.length ∧
    (u.sortCurrentDir).sortPerm.Perm (List.range u.entries.length) ∧
    (u.sortCurrentDir).sortPerm.Nodup ∧
    (∀ i, i < u.entries.length →
      (u.sortCurrentDir).invSortPerm[(u.sortCurrentDir).sortPerm.getD i 0]? = some i) ∧
    (u.sortCurrentDir).sortCurrentDir.sortPerm = (u.sortCurrentDir).sortPerm := by
  have hperm : (insSort (fun a b => entryLess u.sortFlags u.entries a b)
      (List.range u.entries.length)).Perm (List.range u.entries.length) :=
    insSort_perm _ _
  have hlen : (insSort (fun a b => entryLess u.sortFlags u.entries a b)
      (List.range u.entries.length)).length = u.entries.length := by
    rw [hperm.length_eq, List.length_range]
  have hnd : (insSort (fun a b => entryLess u.sortFlags u.entries a b)
      (List.range u.entries.length)).Nodup :=
    hperm.symm.nodup (List.nodup_range _)
  refine ⟨?_, ?_, ?_, ?_, ?_⟩
  · simpa only [UI.sortCurrentDir] using hlen
  · simpa only [UI.sortCurrentDir] using hperm
  · simpa only [UI.sortCurrentDir] using hnd
  · intro i hi
    simp only [UI.sortCurrentDir]
    have hib : i < (insSort (fun a b => entryLess u.sortFlags u.entries a b)
        (List.range u.entries.length)).length := by rw [hlen]; exact hi
    have hgd : (insSort (fun a b => entryLess u.sortFlags u.entries a b)
        (List.range u.entries.length)).getD i 0 =
        (insSort (fun a b => entryLess u.sortFlags u.entries a b)
          (List.range u.entries.length))[i] := by
      rw [List.getD_eq_getElem?_getD, List.getElem?_eq_getElem hib]; rfl
    rw [hgd]
    have := writeInv_get (insSort (fun a b => entryLess u.sortFlags u.entries a b)
        (List.range u.entries.length))
      (if u.invSortPerm.length < (insSort (fun a b => entryLess u.sortFlags u.entries a b)
          (List.range u.entries.length)).length
        then List.replicate (insSort (fun a b => entryLess u.sortFlags u.entries a b)
          (List.range u.entries.length)).length 0 else u.invSortPerm)
      0 hnd ?_ i hib
    · simpa using this
    · intro j hj
      have hjn : j < u.entries.length := List.mem_range.mp (hperm.subset hj)
      split
      · rw [List.length_replicate, hlen]; exact hjn
      · next hh => rw [hlen] at hh; omega
  · rfl


theorem sortFlags_sortCurrentDir (u : UI) : u.sortCurrentDir.sortFlags = u.sortFlags := rfl

theorem sortFlags_setCurrentDir (u : UI) (dd : DirData) :
    (u.setCurrentDir dd).sortFlags = u.sortFlags := rfl

theorem sortFlags_removeEntry (u : UI) (p : Nat) :
    (u.removeEntry p).sortFlags = u.sortFlags := rfl

theorem sortFlags_toggleSelectForCursor (u : UI) :
    u.toggleSelectForCursor.sortFlags = u.sortFlags := by
  simp only [UI.sortFlags, UI.toggleSelectForCursor]
  split_ifs <;> rfl

theorem sortFlags_move (u : UI) (d : Int) : (u.move d).sortFlags = u.sortFlags := by
  simp only [UI.sortFlags, UI.move, UI.toggleSelectForCursor]
  split_ifs <;> rfl

theorem sortFlags_moveBox (u : UI) (t : Int) : (u.moveBox t).sortFlags = u.sortFlags := by
  simp only [UI.sortFlags, UI.moveBox]
  split_ifs <;> rfl

theorem sortFlags_popupBox (u : UI) (text : List String) :
    (u.popupBox text).sortFlags = u.sortFlags := rfl

theorem sortFlags_togglePopupBox (u : UI) (text : List String) :
    (u.togglePopupBox text).sortFlags = u.sortFlags := by
  simp only [UI.sortFlags, UI.togglePopupBox, UI.popupBox]
  split_ifs <;> rfl

theorem sortFlags_deleteSingle (u : UI) : u.deleteSingle.sortFlags = u.sortFlags := by
  simp only [UI.sortFlags, UI.deleteSingle, UI.popupBox]
  split_ifs <;> rfl

theorem sortFlags_deleteSelected (u : UI) : u.deleteSelected.sortFlags = u.sortFlags := rfl

theorem sortFlags_delete (u : UI) : u.delete.sortFlags = u.sortFlags := by
  simp only [UI.delete]
  split_ifs <;> first
    | rfl
    | exact sortFlags_deleteSelected u
    | exact sortFlags_deleteSingle u

theorem sortFlags_foldl_removeEntry (ps : List Nat) (u : UI) :
    (ps.foldl (fun acc p => acc.removeEntry p) u).sortFlags = u.sortFlags := by
  induction ps generalizing u with
  | nil => rfl
  | cons p rest ih => rw [List.foldl_cons, ih, sortFlags_removeEntry]

theorem sortFlags_runHandler (h : BoxHandler) (u : UI) (o : Int) :
    (runHandler h u o).1.sortFlags = u.sortFlags := by
  cases h <;> simp only [runHandler] <;> split_ifs <;>
    first
      | rfl
      | exact (sortFlags_move _ _).trans (sortFlags_removeEntry _ _)
      | exact sortFlags_removeEntry _ _
      | exact (sortFlags_move _ _).trans ((sortFlags_foldl_removeEntry _ _).trans rfl)
      | exact (sortFlags_foldl_removeEntry _ _).trans rfl

theorem sortFlags_handleBoxOption (u : UI) :
    u.handleBoxOption.sortFlags = u.sortFlags := by
  unfold UI.handleBoxOption
  split
  · rfl
  · next h _ =>
    show ((runHandler _ u u.boxMenuButton).1).sortFlags = u.sortFlags
    exact sortFlags_runHandler _ u _

theorem sortFlags_enterWith (u : UI) (env : Option DirData) :
    (u.enterWith env).sortFlags = u.sortFlags := by
  unfold UI.enterWith
  split
  · rfl
  · split
    · rfl
    · exact sortFlags_setCurrentDir u _

theorem sortFlags_upWith (u : UI) (env : Option DirData) :
    (u.upWith env).sortFlags = u.sortFlags := by
  unfold UI.upWith
  split
  · rfl
  · split
    · rfl
    · exact sortFlags_setCurrentDir u _

theorem toggleSort_exactlyOne (u : UI) (f : SortField) :
    exactlyOneActive (u.toggleSort f) := by
  have hnz : (if u.getSortFlag f = 0 then (1 : Int) else -(u.getSortFlag f)) ≠ 0 := by
    split_ifs with h
    · omega
    · omega
  cases f <;>
    simp only [exactlyOneActive, UI.toggleSort, sortFlags_sortCurrentDir,
      UI.sortFlags, SortFlags.exactlyOne] <;>
    first
      | exact Or.inl ⟨hnz, rfl, rfl, rfl⟩
      | exact Or.inr (Or.inl ⟨rfl, hnz, rfl, rfl⟩)
      | exact Or.inr (Or.inr (Or.inl ⟨rfl, rfl, hnz, rfl⟩))
      | exact Or.inr (Or.inr (Or.inr ⟨rfl, rfl, rfl, hnz⟩))

theorem toggleSort_direction (u : UI) (f : SortField) :
    (u.toggleSort f).getSortFlag f =
      (if u.getSortFlag f = 0 then 1 else -(u.getSortFlag f)) := by
  cases f <;> rfl

theorem toggleSort_resets_others (u : UI) (f g : SortField) (hfg : g ≠ f) :
    (u.toggleSort f).getSortFlag g = 0 := by
  cases f <;> cases g <;> first | exact absurd rfl hfg | rfl

theorem applyKey_exactlyOne (u : UI) (k : Key) (env : Option DirData)
    (hu : exactlyOneActive u) : exactlyOneActive (u.applyKey k env) := by
  have pres : ∀ v : UI, v.sortFlags = u.sortFlags → exactlyOneActive v := by
    intro v hv
    unfold exactlyOneActive at *
    rw [hv]
    exact hu
  cases k <;> simp only [UI.applyKey] <;>
    first
      | exact toggleSort_exactlyOne u _
      | exact pres _ rfl
      | (split_ifs <;>
          first
            | exact pres _ rfl
            | exact pres _ (sortFlags_moveBox _ _)
            | exact pres _ (sortFlags_upWith _ _)
            | exact pres _ (sortFlags_enterWith _ _)
            | exact pres _ (sortFlags_handleBoxOption _))
      | exact pres _ (sortFlags_move _ _)
      | exact pres _ (sortFlags_toggleSelectForCursor _)
      | exact pres _ (sortFlags_togglePopupBox _ _)
      | exact pres _ (sortFlags_delete _)

theorem step_exactlyOne {u v : UI} (h : Step u v) (hu : exactlyOneActive u) :
    exactlyOneActive v := by
  have pres : ∀ w : UI, w.sortFlags = u.sortFlags → exactlyOneActive w := by
    intro w hw
    unfold exactlyOneActive at *
    rw [hw]
    exact hu
  cases h with
  | key k env => exact applyKey_exactlyOne u k env hu
  | rootReady dd => exact pres _ (sortFlags_setCurrentDir _ _)
  | scanDone => exact pres _ rfl
  | updated => exact pres _ (sortFlags_sortCurrentDir _)
  | resize h => exact pres _ rfl

theorem reachable_exactlyOne (fsName : String) (u : UI)
    (h : Reachable fsName u) : exactlyOneActive u := by
  induction h with
  | init =>
    unfold exactlyOneActive SortFlags.exactlyOne startUI UI.sortFlags
    right; left
    exact ⟨rfl, one_ne_zero, rfl, rfl⟩
  | step _ s ih => exact step_exactlyOne s ih



theorem decide_lt_asymm {α : Type} [LinearOrder α] {x y : α}
    [Decidable (x < y)] [Decidable (y < x)] (h : x ≠ y) :
    decide (x < y) = !decide (y < x) := by
  rcases lt_trichotomy x y with hlt | heq | hgt
  · rw [decide_eq_true hlt, decide_eq_false (lt_asymm hlt)]
    rfl
  · exact absurd heq h
  · rw [decide_eq_false (lt_asymm hgt), decide_eq_true hgt]
    rfl

theorem entryLess_total (flags : SortFlags) (es : List Entry) (a b : Nat)
    (hkey : (flags.sortByName ≠ 0 ∧ flags.sortBySize = 0 ∧
              flags.sortByCount = 0 ∧ flags.sortByAverageSize = 0) ∨
            (flags.sortByName = 0 ∧ flags.sortBySize ≠ 0 ∧
              flags.sortByCount = 0 ∧ flags.sortByAverageSize = 0) ∨
            (flags.sortByName = 0 ∧ flags.sortBySize = 0 ∧
              flags.sortByCount ≠ 0 ∧ flags.sortByAverageSize = 0))
    (hnames : (es.getD a dfltEntry).remote ≠ (es.getD b dfltEntry).remote) :
    entryLess flags es a b = !entryLess flags es b a := by
  simp only [entryLess]
  rcases hkey with ⟨h1, h2, h3, h4⟩ | ⟨h1, h2, h3, h4⟩ | ⟨h1, h2, h3, h4⟩
  · rcases h1.lt_or_lt with hneg | hpos
    · simp only [if_pos hneg]
      exact decide_lt_asymm hnames.symm
    · simp only [if_neg (by omega : ¬ flags.sortByName < 0), if_pos hpos]
      exact decide_lt_asymm hnames
  · simp only [h1, lt_irrefl, if_false, gt_iff_lt]
    rcases h2.lt_or_lt with hneg | hpos
    · simp only [if_pos hneg]
      by_cases hs : (es.getD a dfltEntry).attrs.size = (es.getD b dfltEntry).attrs.size
      · rw [if_neg (not_ne_iff.mpr hs), if_neg (not_ne_iff.mpr hs.symm)]
        exact decide_lt_asymm hnames
      · rw [if_pos hs, if_pos (Ne.symm hs)]
        exact decide_lt_asymm hs
    · simp only [if_neg (by omega : ¬ flags.sortBySize < 0), if_pos hpos]
      by_cases hs : (es.getD a dfltEntry).attrs.size = (es.getD b dfltEntry).attrs.size
      · rw [if_neg (not_ne_iff.mpr hs), if_neg (not_ne_iff.mpr hs.symm)]
        exact decide_lt_asymm hnames
      · rw [if_pos hs, if_pos (Ne.symm hs)]
        exact decide_lt_asymm (Ne.symm hs)
  · simp only [h1, h2, lt_irrefl, if_false, gt_iff_lt]
    rcases h3.lt_or_lt with hneg | hpos
    · simp only [if_pos hneg]
      by_cases hs : (es.getD a dfltEntry).attrs.count = (es.getD b dfltEntry).attrs.count
      · rw [if_neg (not_ne_iff.mpr hs), if_neg (not_ne_iff.mpr hs.symm)]
        exact decide_lt_asymm hnames
      · rw [if_pos hs, if_pos (Ne.symm hs)]
        exact decide_lt_asymm hs
    · simp only [if_neg (by omega : ¬ flags.sortByCount < 0), if_pos hpos]
      by_cases hs : (es.getD a dfltEntry).attrs.count = (es.getD b dfltEntry).attrs.count
      · rw [if_neg (not_ne_iff.mpr hs), if_neg (not_ne_iff.mpr hs.symm)]
        exact decide_lt_asymm hnames
      · rw [if_pos hs, if_pos (Ne.symm hs)]
        exact decide_lt_asymm (Ne.symm hs)

theorem entryLess_avgSize_tie (flags : SortFlags) (es : List Entry) (a b : Nat)
    (h1 : flags.sortByName = 0) (h2 : flags.sortBySize = 0)
    (h3 : flags.sortByCount = 0) (h4 : flags.sortByAverageSize ≠ 0)
    (havg : avgOf (es.getD a dfltEntry) = avgOf (es.getD b dfltEntry))
    (hsz : (es.getD a dfltEntry).attrs.size = (es.getD b dfltEntry).attrs.size) :
    entryLess flags es a b = false ∧ entryLess flags es b a = false := by
  simp only [entryLess, h1, h2, h3, lt_irrefl, if_false, gt_iff_lt]
  rcases h4.lt_or_lt with hneg | hpos
  · simp only [if_pos hneg]
    rw [if_neg (not_ne_iff.mpr havg), if_neg (not_ne_iff.mpr havg.symm), hsz]
    simp
  · simp only [if_neg (by omega : ¬ flags.sortByAverageSize < 0), if_pos hpos]
    rw [if_neg (not_ne_iff.mpr havg), if_neg (not_ne_iff.mpr havg.symm), hsz]
    simp


theorem toggleSelectForCursor_entries (u : UI) :
    u.toggleSelectForCursor.entries = u.entries := by
  simp only [UI.toggleSelectForCursor]
  split_ifs <;> rfl

theorem toggleSelectForCursor_path (u : UI) :
    u.toggleSelectForCursor.path = u.path := by
  simp only [UI.toggleSelectForCursor]
  split_ifs <;> rfl

theorem toggleSelectForCursor_dirPosMap (u : UI) :
    u.toggleSelectForCursor.dirPosMap = u.dirPosMap := by
  simp only [UI.toggleSelectForCursor]
  split_ifs <;> rfl

theorem toggleSelectForCursor_hasRoot (u : UI) :
    u.toggleSelectForCursor.hasRoot = u.hasRoot := by
  simp only [UI.toggleSelectForCursor]
  split_ifs <;> rfl

theorem toggleSelectForCursor_dirListHeight (u : UI) :
    u.toggleSelectForCursor.dirListHeight = u.dirListHeight := by
  simp only [UI.toggleSelectForCursor]
  split_ifs <;> rfl

theorem move_entries (u : UI) (d : Int) : (u.move d).entries = u.entries := by
  simp only [UI.move]
  split_ifs <;> simp [toggleSelectForCursor_entries]

theorem move_path (u : UI) (d : Int) : (u.move d).path = u.path := by
  simp only [UI.move]
  split_ifs <;> simp [toggleSelectForCursor_path]

theorem move_hasRoot (u : UI) (d : Int) : (u.move d).hasRoot = u.hasRoot := by
  simp only [UI.move]
  split_ifs <;> simp [toggleSelectForCursor_hasRoot]

theorem move_dirListHeight (u : UI) (d : Int) :
    (u.move d).dirListHeight = u.dirListHeight := by
  simp only [UI.move]
  split_ifs <;> simp [toggleSelectForCursor_dirListHeight]

theorem move_dirPosMap_path (u : UI) (d : Int) (h : u.hasRoot = true) :
    (u.move d).dirPosMap u.path =
      movePos (u.entries.length : Int) u.dirListHeight (u.dirPosMap u.path) d := by
  have hcond : ¬ (u.hasRoot = false) := by simp [h]
  simp only [UI.move, if_neg hcond]
  split_ifs <;> simp [toggleSelectForCursor_dirPosMap, toggleSelectForCursor_path]

theorem move_fold_viewInv (ds : List Int) (u : UI) (hroot : u.hasRoot = true)
    (hn : 1 ≤ (u.entries.length : Int)) (hh : 1 ≤ u.dirListHeight)
    (hinv : viewInv (u.entries.length : Int) u.dirListHeight (u.dirPosMap u.path)) :
    viewInv (u.entries.length : Int) u.dirListHeight
      ((ds.foldl (fun w x => w.move x) u).dirPosMap
        ((ds.foldl (fun w x => w.move x) u).path)) := by
  induction ds generalizing u with
  | nil => simpa using hinv
  | cons d rest ih =>
    rw [List.foldl_cons]
    have h1 := ih (u.move d) (by rw [move_hasRoot, hroot])
      (by rw [move_entries]; exact hn) (by rw [move_dirListHeight]; exact hh)
      (by
        rw [move_entries, move_dirListHeight, move_path, move_dirPosMap_path u d hroot]
        exact movePos_viewInv _ _ _ d hn hh hinv)
    rw [move_entries, move_dirListHeight] at h1
    exact h1

theorem movePos_empty (h : Int) (dp : dirPos) (d : Int) :
    (movePos 0 h dp d).offset = 0 ∧
      ((movePos 0 h dp d).entry = 0 ∨ (movePos 0 h dp d).entry = -1) := by
  constructor
  · simp only [movePos]
    split_ifs <;> first | omega | (exfalso; tauto)
  · simp only [movePos]
    split_ifs <;> omega

theorem move_fold_empty (ds : List Int) (u : UI) (hroot : u.hasRoot = true)
    (hn : u.entries.length = 0)
    (hinv : (u.dirPosMap u.path).offset = 0 ∧
      ((u.dirPosMap u.path).entry = 0 ∨ (u.dirPosMap u.path).entry = -1)) :
    ((ds.foldl (fun w x => w.move x) u).dirPosMap
        ((ds.foldl (fun w x => w.move x) u).path)).offset = 0 ∧
      (((ds.foldl (fun w x => w.move x) u).dirPosMap
          ((ds.foldl (fun w x => w.move x) u).path)).entry = 0 ∨
       ((ds.foldl (fun w x => w.move x) u).dirPosMap
          ((ds.foldl (fun w x => w.move x) u).path)).entry = -1) := by
  induction ds generalizing u with
  | nil => simpa using hinv
  | cons d rest ih =>
    rw [List.foldl_cons]
    refine ih (u.move d) (by rw [move_hasRoot, hroot]) (by rw [move_entries]; exact hn) ?_
    rw [move_path, move_dirPosMap_path u d hroot, hn]
    exact movePos_empty u.dirListHeight (u.dirPosMap u.path) d


theorem move_toggles_premove (u : UI) (d : Int) (hroot : u.hasRoot = true)
    (hvis : u.visualSelectMode = true) :
    (u.move d).selectedEntries = u.toggleSelectForCursor.selectedEntries ∧
    (u.move d).dirPosMap u.path =
      movePos (u.entries.length : Int) u.dirListHeight (u.dirPosMap u.path) d := by
  refine ⟨?_, move_dirPosMap_path u d hroot⟩
  have hcond : ¬ (u.hasRoot = false) := by simp [hroot]
  simp only [UI.move, if_neg hcond, hvis, if_true]

theorem esc_dismissal_keeps_staged (u : UI) (hbox : u.showBox = true) :
    u.applyKey .esc none = { u with showBox := false } ∧
    (u.boxMenu.length > 0 →
      (u.applyKey .esc none).applyKey .enter none =
        ({ u with showBox := false } : UI).handleBoxOption) := by
  have h1 : u.applyKey .esc none = { u with showBox := false } := by
    simp [UI.applyKey, hbox]
  refine ⟨h1, fun hm => ?_⟩
  rw [h1]
  have hm' : ({ u with showBox := false } : UI).boxMenu.length > 0 := hm
  simp [UI.applyKey, hm']


theorem removeEntry_entries (u : UI) (p : Nat) :
    (u.removeEntry p).entries = u.entries.eraseIdx p := rfl

theorem removeEntry_path (u : UI) (p : Nat) : (u.removeEntry p).path = u.path := rfl

theorem removeEntry_hasRoot (u : UI) (p : Nat) :
    (u.removeEntry p).hasRoot = u.hasRoot := rfl

theorem removeEntry_dirPosMap (u : UI) (p : Nat) :
    (u.removeEntry p).dirPosMap = u.dirPosMap := rfl

theorem removeEntry_dirListHeight (u : UI) (p : Nat) :
    (u.removeEntry p).dirListHeight = u.dirListHeight := rfl

theorem removeEntry_visualSelectMode (u : UI) (p : Nat) :
    (u.removeEntry p).visualSelectMode = false := rfl

theorem handleBoxOption_delSingleFile_eq (u : UI) (obj : Entry) (idx : Nat)
    (cp : dirPos) (hstaged : u.boxMenuHandler = some (.delSingleFile obj idx cp))
    (hbtn : u.boxMenuButton = 1) :
    u.handleBoxOption = UI.popupBox
      { (if cp.entry ≥ ((u.removeEntry idx).entries.length : Int)
          then (u.removeEntry idx).move (-1) else u.removeEntry idx) with
          boxMenuButton := 0, boxMenu := [], boxMenuHandler := none }
      ["Finished:", "Successfully deleted file!"] := by
  rw [UI.handleBoxOption.eq_def, hstaged]
  simp only [runHandler, hbtn]
  norm_num

theorem handleBoxOption_delSingleDir_eq (u : UI) (dirEntry : Entry) (idx : Nat)
    (cp : dirPos) (hstaged : u.boxMenuHandler = some (.delSingleDir dirEntry idx cp))
    (hbtn : u.boxMenuButton = 1) :
    u.handleBoxOption = UI.popupBox
      { (if cp.entry ≥ ((u.removeEntry idx).entries.length : Int)
          then (u.removeEntry idx).move (-1) else u.removeEntry idx) with
          boxMenuButton := 0, boxMenu := [], boxMenuHandler := none }
      ["Finished:", "Successfully purged folder!"] := by
  rw [UI.handleBoxOption.eq_def, hstaged]
  simp only [runHandler, hbtn]
  norm_num

theorem single_delete_confirm_of_eq (u : UI) (idx : Nat) (cp : dirPos) (msg : String)
    (hru : u.handleBoxOption = UI.popupBox
      { (if cp.entry ≥ ((u.removeEntry idx).entries.length : Int)
          then (u.removeEntry idx).move (-1) else u.removeEntry idx) with
          boxMenuButton := 0, boxMenu := [], boxMenuHandler := none }
      ["Finished:", msg])
    (hcp : u.dirPosMap u.path = cp)
    (hroot : u.hasRoot = true)
    (hidx : idx < u.entries.length)
    (hcpe : 0 ≤ cp.entry) (hcpn : cp.entry < (u.entries.length : Int)) :
    u.handleBoxOption.entries = u.entries.eraseIdx idx ∧
    u.handleBoxOption.entries.length = u.entries.length - 1 ∧
    ((u.entries.length : Int) - 1 ≤ cp.entry →
      (u.handleBoxOption.dirPosMap u.path).entry =
        (if u.entries.length = 1 then 0 else cp.entry - 1)) ∧
    (cp.entry < (u.entries.length : Int) - 1 →
      u.handleBoxOption.dirPosMap u.path = cp) := by
  have hlen : (u.entries.eraseIdx idx).length = u.entries.length - 1 := by
    rw [List.length_eraseIdx]
    simp [hidx]
  by_cases hcond : cp.entry ≥ ((u.removeEntry idx).entries.length : Int)
  · rw [if_pos hcond] at hru
    have he : u.handleBoxOption.entries = u.entries.eraseIdx idx := by
      rw [hru]
      show ((u.removeEntry idx).move (-1)).entries = _
      rw [move_entries, removeEntry_entries]
    refine ⟨he, by rw [he, hlen], fun _ => ?_, fun hlt => ?_⟩
    · have hmap : u.handleBoxOption.dirPosMap u.path =
          movePos ((u.removeEntry idx).entries.length : Int)
            (u.removeEntry idx).dirListHeight cp (-1) := by
        rw [hru]
        show ((u.removeEntry idx).move (-1)).dirPosMap u.path = _
        have hp : u.path = (u.removeEntry idx).path := rfl
        rw [hp, move_dirPosMap_path _ _ (by rw [removeEntry_hasRoot, hroot]),
          removeEntry_dirPosMap, ← hp, hcp]
      rw [hmap]
      rw [removeEntry_entries, hlen] at hcond ⊢
      have hn1 : 1 ≤ u.entries.length := by omega
      simp only [movePos]
      split_ifs <;> push_cast at * <;> omega
    · exfalso
      rw [removeEntry_entries, hlen] at hcond
      have : ((u.entries.length - 1 : Nat) : Int) = (u.entries.length : Int) - 1 := by
        have hn1 : 1 ≤ u.entries.length := by omega
        omega
      omega
  · rw [if_neg hcond] at hru
    have he : u.handleBoxOption.entries = u.entries.eraseIdx idx := by
      rw [hru]
      show ((u.removeEntry idx)).entries = _
      rw [removeEntry_entries]
    have hmap : u.handleBoxOption.dirPosMap u.path = cp := by
      rw [hru]
      show ((u.removeEntry idx)).dirPosMap u.path = _
      rw [removeEntry_dirPosMap, hcp]
    refine ⟨he, by rw [he, hlen], fun hge => ?_, fun _ => hmap⟩
    exfalso
    rw [removeEntry_entries, hlen] at hcond
    have hn1 : 1 ≤ u.entries.length := by omega
    have : ((u.entries.length - 1 : Nat) : Int) = (u.entries.length : Int) - 1 := by
      omega
    omega


theorem getD_eq_getElem {l : List α} {i : Nat} (h : i < l.length) (d : α) :
    l.getD i d = l[i] := by
  rw [List.getD_eq_getElem?_getD, List.getElem?_eq_getElem h]
  rfl

theorem insertBy_pairwise_ge (x : Nat) (l : List Nat)
    (hl : l.Pairwise (· ≥ ·)) :
    (insertBy (fun a b => decide (b ≤ a)) x l).Pairwise (· ≥ ·) := by
  induction l with
  | nil => simp [insertBy]
  | cons y ys ih =>
    rcases List.pairwise_cons.mp hl with ⟨hy, hys⟩
    simp only [insertBy]
    split
    · next hle =>
      have hxy : y ≤ x := of_decide_eq_true hle
      refine List.pairwise_cons.mpr ⟨?_, hl⟩
      intro z hz
      rcases List.mem_cons.mp hz with rfl | hz'
      · exact hxy
      · exact le_trans (hy z hz') hxy
    · next hle =>
      have hxy : ¬ y ≤ x := by simpa using hle
      refine List.pairwise_cons.mpr ⟨?_, ih hys⟩
      intro z hz
      have hz' := (insertBy_perm _ x ys).mem_iff.mp hz
      rcases List.mem_cons.mp hz' with rfl | hz''
      · exact le_of_not_le hxy
      · exact hy z hz''

theorem sortPositionsDesc_pairwise_ge (ps : List Nat) :
    (sortPositionsDesc ps).Pairwise (· ≥ ·) := by
  unfold sortPositionsDesc
  induction ps with
  | nil => simp [insSort]
  | cons x xs ih => exact insertBy_pairwise_ge x _ ih

theorem sortPositionsDesc_perm (ps : List Nat) : (sortPositionsDesc ps).Perm ps :=
  insSort_perm _ ps

theorem sortPositionsDesc_pairwise_gt (ps : List Nat) (hnd : ps.Nodup) :
    (sortPositionsDesc ps).Pairwise (· > ·) := by
  have hge := sortPositionsDesc_pairwise_ge ps
  have hnd' : (sortPositionsDesc ps).Nodup := (sortPositionsDesc_perm ps).symm.nodup hnd
  exact (hge.and hnd').imp (fun h => lt_of_le_of_ne h.1 (Ne.symm h.2))

theorem keepFrom_all_lt (ps : List Nat) (es : List α) :
    ∀ i, (∀ q ∈ ps, q < i) → keepFrom ps i es = es := by
  induction es with
  | nil => intro i _; rfl
  | cons e tl ih =>
    intro i h
    simp only [keepFrom]
    rw [if_neg (fun hmem => absurd (h i hmem) (lt_irrefl i)),
      ih (i + 1) (fun q hq => Nat.lt_succ_of_lt (h q hq))]

theorem keepFrom_eraseIdx (ps : List Nat) (p : Nat) (es : List α) :
    ∀ i, i ≤ p → p < i + es.length → (∀ q ∈ ps, q < p) →
      keepFrom (p :: ps) i es = keepFrom ps i (es.eraseIdx (p - i)) := by
  induction es with
  | nil =>
    intro i h1 h2 _
    simp at h2
    omega
  | cons e tl ih =>
    intro i h1 h2 h3
    by_cases hip : i = p
    · subst hip
      have hsub : i - i = 0 := by omega
      rw [hsub, List.eraseIdx_cons_zero]
      simp only [keepFrom]
      rw [if_pos (List.mem_cons_self i ps),
        keepFrom_all_lt (i :: ps) tl (i + 1) ?_, keepFrom_all_lt ps tl i h3]
      intro q hq
      rcases List.mem_cons.mp hq with rfl | hq'
      · omega
      · exact Nat.lt_succ_of_lt (h3 q hq')
    · have hip' : i < p := lt_of_le_of_ne h1 hip
      have hsub : p - i = (p - (i + 1)) + 1 := by omega
      rw [hsub, List.eraseIdx_cons_succ]
      simp only [keepFrom]
      have hlen : p < (i + 1) + tl.length := by
        simp at h2
        omega
      by_cases hi : i ∈ ps
      · rw [if_pos (List.mem_cons_of_mem p hi), if_pos hi,
          ih (i + 1) hip' hlen h3]
      · rw [if_neg (by simp [hip, hi]), if_neg hi, ih (i + 1) hip' hlen h3]

theorem foldl_eraseIdx_keepFrom (ord : List Nat) (es : List α)
    (hs : ord.Pairwise (· > ·)) (hb : ∀ p ∈ ord, p < es.length) :
    ord.foldl (fun l p => l.eraseIdx p) es = keepFrom ord 0 es := by
  induction ord generalizing es with
  | nil => exact (keepFrom_all_lt [] es 0 (by simp)).symm
  | cons p rest ih =>
    rw [List.foldl_cons]
    rcases List.pairwise_cons.mp hs with ⟨hpr, hrest⟩
    have hple : p < es.length := hb p (List.mem_cons_self p rest)
    have hb' : ∀ q ∈ rest, q < (es.eraseIdx p).length := by
      intro q hq
      rw [List.length_eraseIdx]
      simp only [hple, if_pos]
      have := hpr q hq
      omega
    rw [ih (es.eraseIdx p) hrest hb',
      keepFrom_eraseIdx rest p es 0 (Nat.zero_le p) (by simpa using hple)
        (fun q hq => hpr q hq), Nat.sub_zero]

theorem keepFrom_congr (ps qs : List Nat) (h : ∀ x, x ∈ ps ↔ x ∈ qs) (es : List α) :
    ∀ i, keepFrom ps i es = keepFrom qs i es := by
  induction es with
  | nil => intro _; rfl
  | cons e tl ih =>
    intro i
    simp only [keepFrom]
    by_cases hi : i ∈ ps
    · rw [if_pos hi, if_pos ((h i).mp hi), ih]
    · rw [if_neg hi, if_neg (fun hq => hi ((h i).mpr hq)), ih]

theorem keepFrom_eq_filter (ps : List Nat) (pred : α → Bool) (dflt : α) :
    ∀ (es : List α) (i : Nat),
      (∀ k, k < es.length → ((i + k) ∈ ps ↔ pred (es.getD k dflt) = false)) →
      keepFrom ps i es = es.filter pred := by
  intro es
  induction es with
  | nil => intro _ _; rfl
  | cons e tl ih =>
    intro i h
    simp only [keepFrom, List.filter_cons]
    have htl : ∀ k, k < tl.length →
        ((i + 1 + k) ∈ ps ↔ pred (tl.getD k dflt) = false) := by
      intro k hk
      have hmem := h (k + 1) (by simpa using Nat.succ_lt_succ hk)
      have harr : i + (k + 1) = i + 1 + k := by omega
      rw [harr] at hmem
      simpa using hmem
    by_cases hi : i ∈ ps
    · have hpe : pred e = false := by
        have := (h 0 (by simp)).mp (by simpa using hi)
        simpa using this
      rw [if_pos hi, hpe, if_neg (by simp), ih (i + 1) htl]
    · have hpe : pred e = true := by
        have := (h 0 (by simp))
        simp only [Nat.add_zero, List.getD_cons_zero] at this
        rcases Bool.eq_false_or_eq_true (pred e) with ht | hf
        · exact ht
        · exact absurd (this.mpr hf) hi
      rw [if_neg hi, hpe, if_pos rfl, ih (i + 1) htl]


theorem entries_foldl_removeEntry (ps : List Nat) (u : UI) :
    (ps.foldl (fun acc p => acc.removeEntry p) u).entries =
      ps.foldl (fun l p => l.eraseIdx p) u.entries := by
  induction ps generalizing u with
  | nil => rfl
  | cons p rest ih =>
    rw [List.foldl_cons, List.foldl_cons, ih, removeEntry_entries]

theorem handleBoxOption_entries_run (u : UI) (h : BoxHandler)
    (hh : u.boxMenuHandler = some h) :
    u.handleBoxOption.entries = (runHandler h u u.boxMenuButton).1.entries := by
  rw [UI.handleBoxOption.eq_def, hh]
  rfl

theorem handleBoxOption_delSelected_entries (u : UI)
    (hstaged : u.boxMenuHandler = some .delSelected)
    (hbtn : u.boxMenuButton = 1) :
    u.handleBoxOption.entries =
      (sortPositionsDesc (u.selectedEntries.map (fun kv => resolvePos u kv.2))).foldl
        (fun l p => l.eraseIdx p) u.entries := by
  rw [handleBoxOption_entries_run u _ hstaged, hbtn]
  simp only [runHandler]
  norm_num
  split
  · rw [move_entries, entries_foldl_removeEntry]
  · rw [entries_foldl_removeEntry]

theorem getD_remote_inj (es : List Entry)
    (hnames : (es.map Entry.remote).Nodup) {i j : Nat}
    (hi : i < es.length) (hj : j < es.length)
    (h : (es.getD i dfltEntry).remote = (es.getD j dfltEntry).remote) : i = j := by
  have hi' : i < (es.map Entry.remote).length := by simpa
  have hj' : j < (es.map Entry.remote).length := by simpa
  rw [getD_eq_getElem hi, getD_eq_getElem hj] at h
  have hmap : (es.map Entry.remote)[i] = (es.map Entry.remote)[j] := by
    simpa using h
  exact (hnames.getElem_inj_iff).mp hmap

theorem batch_delete_confirm_aux (u : UI)
    (hstaged : u.boxMenuHandler = some .delSelected)
    (hbtn : u.boxMenuButton = 1)
    (hkeys : (u.selectedEntries.map Prod.fst).Nodup)
    (hres : ∀ kv ∈ u.selectedEntries, resolvePos u kv.2 < u.entries.length ∧
        (u.entries.getD (resolvePos u kv.2) dfltEntry).remote = kv.1)
    (hnames : (u.entries.map Entry.remote).Nodup) :
    (sortPositionsDesc (u.selectedEntries.map (fun kv => resolvePos u kv.2))).Pairwise
      (· > ·) ∧
    u.handleBoxOption.entries =
      keepFrom (u.selectedEntries.map (fun kv => resolvePos u kv.2)) 0 u.entries ∧
    u.handleBoxOption.entries = u.entries.filter
      (fun e => (u.selectedEntries.find? (fun kv => kv.1 = e.remote)).isNone) := by
  set ps := u.selectedEntries.map (fun kv => resolvePos u kv.2) with hps
  have hpsnd : ps.Nodup := by
    have h1 : u.selectedEntries.Pairwise (fun a b => a.1 ≠ b.1) :=
      List.pairwise_map.mp hkeys
    have h2 : u.selectedEntries.Pairwise
        (fun a b => resolvePos u a.2 ≠ resolvePos u b.2) := by
      refine h1.imp_of_mem ?_
      intro a b ha hb hne heq
      have e1 := (hres a ha).2
      have e2 := (hres b hb).2
      rw [← heq] at e2
      exact hne (e1.symm.trans e2)
    exact List.pairwise_map.mpr h2
  have hbnd : ∀ p ∈ ps, p < u.entries.length := by
    intro p hp
    rcases List.mem_map.mp hp with ⟨kv, hkv, rfl⟩
    exact (hres kv hkv).1
  have hgt := sortPositionsDesc_pairwise_gt ps hpsnd
  have hmem : ∀ x, x ∈ sortPositionsDesc ps ↔ x ∈ ps :=
    fun x => (sortPositionsDesc_perm ps).mem_iff
  have hent := handleBoxOption_delSelected_entries u hstaged hbtn
  have hkeep : u.handleBoxOption.entries = keepFrom ps 0 u.entries := by
    rw [hent, foldl_eraseIdx_keepFrom _ _ hgt
      (fun p hp => hbnd p ((hmem p).mp hp)),
      keepFrom_congr (sortPositionsDesc ps) ps hmem u.entries 0]
  refine ⟨hgt, hkeep, ?_⟩
  rw [hkeep]
  refine keepFrom_eq_filter ps _ dfltEntry u.entries 0 ?_
  intro k hk
  rw [Nat.zero_add]
  constructor
  · intro hkps
    rcases List.mem_map.mp hkps with ⟨kv, hkv, hres2⟩
    have hkey : (u.entries.getD k dfltEntry).remote = kv.1 := by
      rw [← hres2]
      exact (hres kv hkv).2
    have hsome : (u.selectedEntries.find?
        (fun kv2 => kv2.1 = (u.entries.getD k dfltEntry).remote)).isSome := by
      refine List.find?_isSome.mpr ⟨kv, hkv, ?_⟩
      exact decide_eq_true hkey.symm
    cases hcase : u.selectedEntries.find?
        (fun kv2 => kv2.1 = (u.entries.getD k dfltEntry).remote) with
    | none => rw [hcase] at hsome; simp at hsome
    | some v => simp [hcase]
  · intro hpred
    cases hcase : u.selectedEntries.find?
        (fun kv2 => kv2.1 = (u.entries.getD k dfltEntry).remote) with
    | none => rw [hcase] at hpred; simp at hpred
    | some kv0 =>
      have hmem0 : kv0 ∈ u.selectedEntries := List.mem_of_find?_eq_some hcase
      have hkey0 : kv0.1 = (u.entries.getD k dfltEntry).remote := by
        have := List.find?_some hcase
        simpa using this
      have hkk : resolvePos u kv0.2 = k := by
        refine getD_remote_inj u.entries hnames (hres kv0 hmem0).1 hk ?_
        rw [(hres kv0 hmem0).2, hkey0]
      rw [hps]
      exact List.mem_map.mpr ⟨kv0, hmem0, hkk⟩


theorem single_delete_confirm (u : UI) (obj : Entry) (idx : Nat) (cp : dirPos)
    (hstaged : u.boxMenuHandler = some (.delSingleFile obj idx cp) ∨
               u.boxMenuHandler = some (.delSingleDir obj idx cp))
    (hbtn : u.boxMenuButton = 1)
    (hcp : u.dirPosMap u.path = cp)
    (hroot : u.hasRoot = true)
    (hidx : idx < u.entries.length)
    (hcpe : 0 ≤ cp.entry) (hcpn : cp.entry < (u.entries.length : Int)) :
    u.handleBoxOption.entries = u.entries.eraseIdx idx ∧
    u.handleBoxOption.entries.length = u.entries.length - 1 ∧
    ((u.entries.length : Int) - 1 ≤ cp.entry →
      (u.handleBoxOption.dirPosMap u.path).entry =
        (if u.entries.length = 1 then 0 else cp.entry - 1)) ∧
    (cp.entry < (u.entries.length : Int) - 1 →
      u.handleBoxOption.dirPosMap u.path = cp) := by
  rcases hstaged with h | h
  · exact single_delete_confirm_of_eq u idx cp _
      (handleBoxOption_delSingleFile_eq u obj idx cp h hbtn) hcp hroot hidx hcpe hcpn
  · exact single_delete_confirm_of_eq u idx cp _
      (handleBoxOption_delSingleDir_eq u obj idx cp h hbtn) hcp hroot hidx hcpe hcpn

/-! Claim-level theorems, witnesses and counterexamples. -/

/-- C1 counterexample: a confirmed batch delete in which every backend
deletion succeeds ("Successfully deleted all items!") but the directory
afterwards does not consist of the never-selected children: the selection
is `{"b"}`, yet after the sort permutation changed between selection and
confirm the surviving entry is exactly `b` and the never-selected `a` is
gone. -/
theorem batch_delete_survivors_counterexample :
    uC3resorted.selectedEntries.map Prod.fst = ["b"] ∧
    uC3confirmed.boxText = ["Finished:", "Successfully deleted all items!"] ∧
    uC3confirmed.entries ≠ uC3resorted.entries.filter
      (fun e => (uC3resorted.selectedEntries.find? (fun kv => kv.1 = e.remote)).isNone) := by
  decide

/-- C1 (amended): on a confirmed batch delete the collected positions —
each selected entry's stored display rank resolved through the current
permutation at confirm time — are removed in strictly descending order,
and the directory afterwards holds exactly the entries at unresolved
positions, in their original relative order; when every selected entry
still resolves to itself (its resolved position carries its key), these
are exactly the never-selected children. -/
theorem batch_delete_confirm (u : UI)
    (hstaged : u.boxMenuHandler = some .delSelected)
    (hbtn : u.boxMenuButton = 1)
    (hkeys : (u.selectedEntries.map Prod.fst).Nodup)
    (hres : ∀ kv ∈ u.selectedEntries, resolvePos u kv.2 < u.entries.length ∧
        (u.entries.getD (resolvePos u kv.2) dfltEntry).remote = kv.1)
    (hnames : (u.entries.map Entry.remote).Nodup) :
    (sortPositionsDesc (u.selectedEntries.map (fun kv => resolvePos u kv.2))).Pairwise
      (· > ·) ∧
    u.handleBoxOption.entries =
      keepFrom (u.selectedEntries.map (fun kv => resolvePos u kv.2)) 0 u.entries ∧
    u.handleBoxOption.entries = u.entries.filter
      (fun e => (u.selectedEntries.find? (fun kv => kv.1 = e.remote)).isNone) :=
  batch_delete_confirm_aux u hstaged hbtn hkeys hres hnames

/-- C1 witness: the spec's 6-child scenario — selected display ranks
`{2, 5, 1}`, removal order `[5, 2, 1]`, and the three untouched children
`a`, `d`, `e` survive in their original relative order. -/
theorem batch_delete_confirm_witness :
    uSixFiles.selectedEntries.map (fun kv => resolvePos uSixFiles kv.2) = [2, 5, 1] ∧
    sortPositionsDesc [2, 5, 1] = [5, 2, 1] ∧
    uSixFiles.handleBoxOption.entries.map Entry.remote = ["a", "d", "e"] ∧
    uSixFiles.handleBoxOption.entries = uSixFiles.entries.filter
      (fun e => (uSixFiles.selectedEntries.find? (fun kv => kv.1 = e.remote)).isNone) := by
  refine ⟨by decide, by decide, by decide, ?_⟩
  exact (batch_delete_confirm uSixFiles rfl rfl (by decide) (by decide) (by decide)).2.2

/-- C2 counterexample: dismissing a staged menu-bearing confirmation popup
with Esc leaves the staged menu, handler and highlighted option in place —
a subsequent Enter (confirm input) then runs the stale handler, actually
deleting the file — and restaging a delete popup afterwards starts with
option index 1 ("confirm"), not "cancel". -/
theorem dismissed_popup_still_armed_counterexample :
    uC2dismissed.showBox = false ∧
    uC2dismissed.boxMenu = ["cancel", "confirm"] ∧
    uC2dismissed.boxMenuButton = 1 ∧
    uC2dismissed.boxMenuHandler ≠ none ∧
    uC2confirm.entries = [] ∧
    uC2restaged.boxMenuButton = 1 := by
  decide

/-- C2 (amended): dismissing a shown popup (quit/escape input) only clears
`showBox` — the staged menu, handler and highlighted option all survive
unchanged — and while the surviving menu is non-empty a subsequent Enter
input invokes `handleBoxOption` on the dismissed state (running the stale
handler with the surviving option) instead of executing nothing. -/
theorem dismissal_keeps_staged_state (u : UI) (hbox : u.showBox = true) :
    u.applyKey .esc none = { u with showBox := false } ∧
    (u.boxMenu.length > 0 →
      (u.applyKey .esc none).applyKey .enter none =
        ({ u with showBox := false } : UI).handleBoxOption) :=
  esc_dismissal_keeps_staged u hbox

/-- C2 witness: the amended dismissal behaviour at the concrete staged
state with "confirm" highlighted. -/
theorem dismissal_keeps_staged_state_witness :
    uC2right.showBox = true ∧
    uC2right.applyKey .esc none = { uC2right with showBox := false } :=
  ⟨by decide, (dismissal_keeps_staged_state uC2right (by decide)).1⟩

/-- C3 (code bug): the batch-delete confirm handler resolves each selected
entry by pushing the display rank stored at selection time through the
permutation current at confirm time; after the sort order changes this
denotes a different entry.  Concretely: with files `a` (size 1) and `b`
(size 2) shown size-descending, `b` is selected at display rank 0, the
sort is toggled to ascending, and the confirmed batch delete then removes
`a` — a file that was never selected — while the selected `b` survives. -/
theorem stale_rank_resolution_deletes_wrong_entry :
    uC3resorted.selectedEntries.map Prod.fst = ["b"] ∧
    uC3resorted.entries.map Entry.remote = ["a", "b"] ∧
    uC3confirmed.entries.map Entry.remote = ["b"] ∧
    uC3confirmed.boxText = ["Finished:", "Successfully deleted all items!"] := by
  decide

/-- C4 counterexample: with the averageSize key active, two distinct
entries (two empty directories `a` and `b`) that tie exactly in average
size and in size compare equal in both directions — the comparator does
not fall back to name comparison, so the induced order is not total. -/
theorem avgSize_sort_ties_counterexample :
    entryLess ⟨0, 0, 0, 1⟩ [emptyDirEntry "a", emptyDirEntry "b"] 0 1 = false ∧
    entryLess ⟨0, 0, 0, 1⟩ [emptyDirEntry "a", emptyDirEntry "b"] 1 0 = false ∧
    emptyDirEntry "a" ≠ emptyDirEntry "b" := by
  decide

/-- C4 (amended): for the name, size and count keys (either direction) an
exact tie falls back to ascending identity-key comparison and the order is
total — of two entries with distinct keys exactly one precedes the other;
for the averageSize key an exact average tie falls back to the size
comparison only, so entries tying in both average and size compare equal
in both directions. -/
theorem ncduSort_less_totality :
    (∀ (flags : SortFlags) (es : List Entry) (a b : Nat),
      ((flags.sortByName ≠ 0 ∧ flags.sortBySize = 0 ∧
         flags.sortByCount = 0 ∧ flags.sortByAverageSize = 0) ∨
       (flags.sortByName = 0 ∧ flags.sortBySize ≠ 0 ∧
         flags.sortByCount = 0 ∧ flags.sortByAverageSize = 0) ∨
       (flags.sortByName = 0 ∧ flags.sortBySize = 0 ∧
         flags.sortByCount ≠ 0 ∧ flags.sortByAverageSize = 0)) →
      (es.getD a dfltEntry).remote ≠ (es.getD b dfltEntry).remote →
      entryLess flags es a b = !entryLess flags es b a) ∧
    (∀ (flags : SortFlags) (es : List Entry) (a b : Nat),
      flags.sortByName = 0 → flags.sortBySize = 0 → flags.sortByCount = 0 →
      flags.sortByAverageSize ≠ 0 →
      avgOf (es.getD a dfltEntry) = avgOf (es.getD b dfltEntry) →
      (es.getD a dfltEntry).attrs.size = (es.getD b dfltEntry).attrs.size →
      entryLess flags es a b = false ∧ entryLess flags es b a = false) :=
  ⟨fun flags es a b hkey hnames => entryLess_total flags es a b hkey hnames,
   fun flags es a b h1 h2 h3 h4 havg hsz =>
     entryLess_avgSize_tie flags es a b h1 h2 h3 h4 havg hsz⟩

/-- C4 witness: totality at a concrete pair under the ascending name key,
and the averageSize equal-compare at the two empty directories. -/
theorem ncduSort_less_totality_witness :
    (([fileEntry "a" 1, fileEntry "b" 2].getD 0 dfltEntry).remote ≠
      ([fileEntry "a" 1, fileEntry "b" 2].getD 1 dfltEntry).remote) ∧
    entryLess ⟨1, 0, 0, 0⟩ [fileEntry "a" 1, fileEntry "b" 2] 0 1 =
      !entryLess ⟨1, 0, 0, 0⟩ [fileEntry "a" 1, fileEntry "b" 2] 1 0 ∧
    entryLess ⟨0, 0, 0, -1⟩ [emptyDirEntry "a", emptyDirEntry "b"] 0 1 = false :=
  ⟨by decide,
   ncduSort_less_totality.1 ⟨1, 0, 0, 0⟩ [fileEntry "a" 1, fileEntry "b" 2] 0 1
     (Or.inl (by decide)) (by decide),
   (ncduSort_less_totality.2 ⟨0, 0, 0, -1⟩ [emptyDirEntry "a", emptyDirEntry "b"] 0 1
     rfl rfl rfl (by decide) (by decide) (by decide)).1⟩

/-- C5 counterexample: in a directory with no children, `move 1` stores
cursor index `-1` (the clamp `entries - 1` underflows), violating the
"both 0 when the directory has no children" part of the invariant. -/
theorem move_empty_dir_counterexample :
    uEmptyDir.entries.length = 0 ∧
    ((uEmptyDir.move 1).dirPosMap uEmptyDir.path).entry = -1 ∧
    ((uEmptyDir.move 1).dirPosMap uEmptyDir.path).offset = 0 := by
  decide

/-- C5 (amended): for every sequence of `move(delta)` calls on a
**non-empty** directory (with at least one visible row), starting from a
viewport satisfying the invariant, the stored viewport keeps satisfying
`0 ≤ cursorIndex < childCount`, `0 ≤ scrollOffset ≤ cursorIndex` and
`cursorIndex - scrollOffset ∈ [0, visibleRows)`; on an **empty** directory
the scroll offset stays 0 but the cursor index ends at 0 **or −1** (it is
not pinned to 0). -/
theorem move_viewport_invariant :
    (∀ (u : UI) (ds : List Int), u.hasRoot = true →
      1 ≤ (u.entries.length : Int) → 1 ≤ u.dirListHeight →
      viewInv (u.entries.length : Int) u.dirListHeight (u.dirPosMap u.path) →
      viewInv (u.entries.length : Int) u.dirListHeight
        ((ds.foldl (fun w x => w.move x) u).dirPosMap
          ((ds.foldl (fun w x => w.move x) u).path))) ∧
    (∀ (u : UI) (ds : List Int), u.hasRoot = true → u.entries.length = 0 →
      (u.dirPosMap u.path).offset = 0 →
      ((u.dirPosMap u.path).entry = 0 ∨ (u.dirPosMap u.path).entry = -1) →
      ((ds.foldl (fun w x => w.move x) u).dirPosMap
          ((ds.foldl (fun w x => w.move x) u).path)).offset = 0 ∧
        (((ds.foldl (fun w x => w.move x) u).dirPosMap
            ((ds.foldl (fun w x => w.move x) u).path)).entry = 0 ∨
         ((ds.foldl (fun w x => w.move x) u).dirPosMap
            ((ds.foldl (fun w x => w.move x) u).path)).entry = -1)) :=
  ⟨fun u ds h1 h2 h3 h4 => move_fold_viewInv ds u h1 h2 h3 h4,
   fun u ds h1 h2 h3 h4 => move_fold_empty ds u h1 h2 ⟨h3, h4⟩⟩

/-- C5 witness: the invariant holds after the move sequence `[1, -5, 3]`
on the freshly displayed two-file directory. -/
theorem move_viewport_invariant_witness :
    (1 : Int) ≤ (uTwoFiles.entries.length : Int) ∧
    viewInv (uTwoFiles.entries.length : Int) uTwoFiles.dirListHeight
      (([1, -5, 3].foldl (fun w x => w.move x) uTwoFiles).dirPosMap
        (([1, -5, 3].foldl (fun w x => w.move x) uTwoFiles).path)) :=
  ⟨by decide,
   move_viewport_invariant.1 uTwoFiles [1, -5, 3] (by decide) (by decide)
     (by decide) (by decide)⟩

/-- C6 counterexample: with visual select mode on and the cursor at
display rank 0 of the two-file directory (display order `a, b`), `move 1`
lands the cursor on rank 1 — whose entry is `b` — but the entry toggled
into the selection is `a`, the **pre-move** cursor entry, not the entry
the cursor lands on. -/
theorem move_visual_toggle_counterexample :
    uTwoFiles.visualSelectMode = true ∧
    ((uTwoFiles.move 1).dirPosMap uTwoFiles.path).entry = 1 ∧
    (uTwoFiles.entries.getD (uTwoFiles.sortPerm.getD 1 0) dfltEntry).remote = "b" ∧
    (uTwoFiles.move 1).selectedEntries = [("a", ⟨0, 0⟩)] := by
  decide

/-- C6 (amended): when visual select mode is active, every `move(delta)`
call toggles the entry at the **pre-move** cursor position (the selection
side effect runs before the new `dirPos` is written back to the map), and
only afterwards is the cursor position updated to the move target. -/
theorem move_toggles_premove_entry (u : UI) (d : Int)
    (hroot : u.hasRoot = true) (hvis : u.visualSelectMode = true) :
    (u.move d).selectedEntries = u.toggleSelectForCursor.selectedEntries ∧
    (u.move d).dirPosMap u.path =
      movePos (u.entries.length : Int) u.dirListHeight (u.dirPosMap u.path) d :=
  move_toggles_premove u d hroot hvis

/-- C6 witness: the amended toggle-then-update behaviour at the concrete
two-file directory. -/
theorem move_toggles_premove_entry_witness :
    uTwoFiles.visualSelectMode = true ∧
    (uTwoFiles.move 1).selectedEntries =
      uTwoFiles.toggleSelectForCursor.selectedEntries :=
  ⟨by decide, (move_toggles_premove_entry uTwoFiles 1 (by decide) (by decide)).1⟩

/-- C7: after `sortCurrentDir` recomputes the sort, `sortPerm` has length
`n` (the child count), is a permutation of `[0, n)` (a bijection),
`invSortPerm[sortPerm[i]] = i` for every `i < n`, and recomputing with the
same key and unchanged children yields the identical permutation. -/
theorem sortCurrentDir_permutation_props (u : UI) :
    (u.sortCurrentDir).sortPerm.length = u.entries.length ∧
    (u.sortCurrentDir).sortPerm.Perm (List.range u.entries.length) ∧
    (u.sortCurrentDir).sortPerm.Nodup ∧
    (∀ i, i < u.entries.length →
      (u.sortCurrentDir).invSortPerm[(u.sortCurrentDir).sortPerm.getD i 0]? = some i) ∧
    (u.sortCurrentDir).sortCurrentDir.sortPerm = (u.sortCurrentDir).sortPerm :=
  sortCurrentDir_props u

/-- C7 witness: the inverse-permutation property at rank 0 of the one-file
directory. -/
theorem sortCurrentDir_permutation_props_witness :
    0 < uOneFile.entries.length ∧
    (uOneFile.sortCurrentDir).invSortPerm[(uOneFile.sortCurrentDir).sortPerm.getD 0 0]? =
      some 0 :=
  ⟨by decide, (sortCurrentDir_permutation_props uOneFile).2.2.2.1 0 (by decide)⟩

/-- C8: confirming a staged single-entry delete (file or directory) whose
backend deletion succeeds removes the staged node from the in-memory tree
(the entry list loses exactly the resolved index, so the child count drops
by one), and if the staged cursor index then equals or exceeds the new
child count the stored cursor is stepped back by one — in a 1-child
directory the child count becomes 0 and the cursor clamps to 0; a cursor
still below the new count is left unchanged. -/
theorem single_delete_confirm_claim (u : UI) (obj : Entry) (idx : Nat) (cp : dirPos)
    (hstaged : u.boxMenuHandler = some (.delSingleFile obj idx cp) ∨
               u.boxMenuHandler = some (.delSingleDir obj idx cp))
    (hbtn : u.boxMenuButton = 1)
    (hcp : u.dirPosMap u.path = cp)
    (hroot : u.hasRoot = true)
    (hidx : idx < u.entries.length)
    (hcpe : 0 ≤ cp.entry) (hcpn : cp.entry < (u.entries.length : Int)) :
    u.handleBoxOption.entries = u.entries.eraseIdx idx ∧
    u.handleBoxOption.entries.length = u.entries.length - 1 ∧
    ((u.entries.length : Int) - 1 ≤ cp.entry →
      (u.handleBoxOption.dirPosMap u.path).entry =
        (if u.entries.length = 1 then 0 else cp.entry - 1)) ∧
    (cp.entry < (u.entries.length : Int) - 1 →
      u.handleBoxOption.dirPosMap u.path = cp) :=
  single_delete_confirm u obj idx cp hstaged hbtn hcp hroot hidx hcpe hcpn

/-- C8 witness: the spec's 1-child scenario — deleting the only file
leaves `childCount = 0` and the cursor clamped at 0. -/
theorem single_delete_confirm_claim_witness :
    uOneStagedDelete.entries.length = 1 ∧
    uOneStagedDelete.handleBoxOption.entries = [] ∧
    (uOneStagedDelete.handleBoxOption.dirPosMap uOneStagedDelete.path).entry = 0 := by
  have h := single_delete_confirm_claim uOneStagedDelete (fileEntry "a" 1) 0 ⟨0, 0⟩
    (Or.inl rfl) rfl (by decide) rfl (by decide) (by decide) (by decide)
  refine ⟨by decide, by simpa using h.1, ?_⟩
  have h3 := h.2.2.1 (by decide)
  simpa using h3

/-- C9: in every state the event loop can reach from the initial state
(across all key handlers, root arrival, scan completion, update signals
and resizes) exactly one of the four sort keys is active; toggling a key
turns it from inactive (`0`) to `+1` and otherwise flips its sign
(`+1 → -1 → +1 → …`); and every toggle resets all other keys to `0`. -/
theorem toggleSort_cycle_and_exclusive :
    (∀ (fsName : String) (u : UI), Reachable fsName u → exactlyOneActive u) ∧
    (∀ (u : UI) (f : SortField),
      (u.toggleSort f).getSortFlag f =
        (if u.getSortFlag f = 0 then 1 else -(u.getSortFlag f))) ∧
    (∀ (u : UI) (f g : SortField), g ≠ f → (u.toggleSort f).getSortFlag g = 0) :=
  ⟨reachable_exactlyOne, toggleSort_direction, toggleSort_resets_others⟩

/-- C9 witness: the invariant at the initial state, the `0 → +1 → -1`
cycle for the name key, and the size key being reset by a name toggle. -/
theorem toggleSort_cycle_and_exclusive_witness :
    exactlyOneActive (startUI "r") ∧
    ((startUI "r").toggleSort .byName).getSortFlag .byName = 1 ∧
    (((startUI "r").toggleSort .byName).toggleSort .byName).getSortFlag .byName = -1 ∧
    ((startUI "r").toggleSort .byName).getSortFlag .bySize = 0 := by
  refine ⟨toggleSort_cycle_and_exclusive.1 "r" _ Reachable.init, ?_, ?_,
    toggleSort_cycle_and_exclusive.2.2 (startUI "r") .byName .bySize (by decide)⟩
  · have h := toggleSort_cycle_and_exclusive.2.1 (startUI "r") .byName
    simpa using h
  · have h0 : ((startUI "r").toggleSort .byName).getSortFlag .byName = 1 := by
      have h := toggleSort_cycle_and_exclusive.2.1 (startUI "r") .byName
      simpa using h
    have h := toggleSort_cycle_and_exclusive.2.1 ((startUI "r").toggleSort .byName) .byName
    rw [h0] at h
    simpa using h

/-- C10 (code bug): the 'v' key handler calls `toggleSelectForCursor`
unconditionally, and before the root directory has arrived (the initial
state) the sort permutation is empty while the looked-up cursor position
is `⟨0, 0⟩`, so the access `u.sortPerm[cursorPos.entry]` is out of bounds
(in the Go code this indexes an empty slice and panics). -/
theorem select_key_out_of_bounds_before_root :
    (startUI "r").applyKey .keyV none = (startUI "r").toggleSelectForCursor ∧
    (startUI "r").sortPerm = [] ∧
    (startUI "r").dirPosMap (startUI "r").path = ⟨0, 0⟩ ∧
    ¬ (startUI "r").toggleSelectAccessOK :=
  ⟨rfl, rfl, rfl, by decide⟩

end Ncdu
